import Mathlib

/-!
Verification of the consensus reactor's peer-state machinery, wire codec,
transaction event buffer and BroadcastTxCommit against their specification.
Go structures are embedded as Lean structures; Go pointer-valued bit arrays
are embedded as indices into an explicit heap so that aliasing of bit
arrays (for example `CatchupCommit := Precommits`) is represented
faithfully.  Machine integers are modelled as `Int` (heights, rounds) and
`Nat` (sizes, indices); fallible operations return `Option`.
-/

namespace Tendermint

/-- Vote types.  The source distinguishes prevotes from precommits by a
byte tag (`types.VoteTypePrevote`, `types.VoteTypePrecommit`); only these
two are valid, and all claims below restrict to valid vote types, so votes
are embedded as a two-constructor sum. -/
inductive VoteType where
  | prevote
  | precommit
deriving Repr, DecidableEq

/-- Modelled from the spec: `RoundStepType` is defined in the consensus
state file, which is not among the covered sources.  The spec gives
Step ∈ {NewHeight, Propose, Prevote, Prevoting, Precommit, Precommitting,
Commit}, ordered as listed. -/
inductive RoundStepType where
  | newHeight
  | propose
  | prevote
  | prevoting
  | precommit
  | precommitting
  | commit
deriving Repr, DecidableEq

/-- Numeric rank of a step, used for the order on steps. -/
def RoundStepType.toNat : RoundStepType → Nat
  | .newHeight => 1
  | .propose => 2
  | .prevote => 3
  | .prevoting => 4
  | .precommit => 5
  | .precommitting => 6
  | .commit => 7

/-- Modelled from the spec: `CompareHRS` is defined in the consensus state
file, which is not among the covered sources.  The spec states that
`(H, R, Step)` triples are compared in lexicographic order; the result is
negative, zero or positive as the first triple compares less than, equal
to or greater than the second. -/
def compareHRS (h1 r1 : Int) (s1 : RoundStepType) (h2 r2 : Int) (s2 : RoundStepType) : Int :=
  if h1 < h2 then -1
  else if h1 > h2 then 1
  else if r1 < r2 then -1
  else if r1 > r2 then 1
  else if s1.toNat < s2.toNat then -1
  else if s1.toNat > s2.toNat then 1
  else 0

/-- Part-set header: total part count plus an (opaquely modelled) hash.
The zero value `⟨0, 0⟩` corresponds to Go's `types.PartSetHeader{}`. -/
structure PartSetHeader where
  total : Nat
  hash : Nat
deriving Repr, DecidableEq

instance : Inhabited PartSetHeader := ⟨⟨0, 0⟩⟩

/-- Contents of one bit array (`cmn.BitArray` from the support library is
an external dependency; its operations are modelled from the spec's
BitArray description: fixed capacity, `Set`, `Sub` as bitwise AND-NOT). -/
structure BAData where
  bits : List Bool
deriving Repr, DecidableEq

/-- Set bit `i` to `v`; out-of-range writes are no-ops, matching the
capacity check of the library implementation. -/
def BAData.setIndex (d : BAData) (i : Nat) (v : Bool) : BAData :=
  if i < d.bits.length then { bits := d.bits.set i v } else d

/-- Pointwise AND-NOT on bit lists, the second operand zero-extended to
the first's length. -/
def subBits : List Bool → List Bool → List Bool
  | [], _ => []
  | a :: as, [] => a :: subBits as []
  | a :: as, b :: bs => (a && !b) :: subBits as bs

/-- Bitwise AND-NOT over the receiver's capacity, the other operand
zero-extended. -/
def BAData.subBA (d o : BAData) : BAData :=
  { bits := subBits d.bits o.bits }

/-- Fresh all-false bit array of the given capacity (`cmn.NewBitArray`). -/
def newBitArray (n : Nat) : BAData :=
  { bits := List.replicate n false }

/-- Go pointers to bit arrays are modelled as indices into a heap. -/
abbrev Ptr := Nat

/-- Heap of allocated bit arrays; allocation appends, so existing pointers
stay valid. -/
structure Heap where
  arrays : List BAData
deriving Repr, DecidableEq

/-- Dereference a pointer (out-of-range pointers read as empty, never
reached by the operations below). -/
def Heap.get (h : Heap) (p : Ptr) : BAData :=
  h.arrays.getD p ⟨[]⟩

/-- Overwrite the array a pointer refers to. -/
def Heap.setArr (h : Heap) (p : Ptr) (d : BAData) : Heap :=
  { arrays := h.arrays.set p d }

/-- Allocate a fresh array, returning the new heap and the pointer. -/
def Heap.alloc (h : Heap) (d : BAData) : Heap × Ptr :=
  ({ arrays := h.arrays ++ [d] }, h.arrays.length)

/-- Mutate one bit through a possibly-nil pointer: `SetIndex` on a nil
`*BitArray` receiver is a no-op in the library, so a `none` pointer leaves
the heap unchanged. -/
def Heap.setBit (h : Heap) (p : Option Ptr) (i : Nat) (v : Bool) : Heap :=
  match p with
  | none => h
  | some p => h.setArr p ((h.get p).setIndex i v)

/-- PeerRoundState (consensus/reactor.go): the known state of a peer.
Bit-array fields hold `Option Ptr` — `none` is Go's nil pointer. -/
structure PeerRoundState where
  Height : Int
  Round : Int
  Step : RoundStepType
  StartTime : Int
  Proposal : Bool
  ProposalBlockPartsHeader : PartSetHeader
  ProposalBlockParts : Option Ptr
  ProposalPOLRound : Int
  ProposalPOL : Option Ptr
  Prevotes : Option Ptr
  Precommits : Option Ptr
  LastCommitRound : Int
  LastCommit : Option Ptr
  CatchupCommitRound : Int
  CatchupCommit : Option Ptr
deriving Repr, DecidableEq

/-- NewPeerState's initial round state (consensus/reactor.go): rounds
initialised to -1, everything else zero/nil. -/
def initialPeerRoundState : PeerRoundState :=
  { Height := 0, Round := -1, Step := .newHeight, StartTime := 0,
    Proposal := false, ProposalBlockPartsHeader := default,
    ProposalBlockParts := none, ProposalPOLRound := -1, ProposalPOL := none,
    Prevotes := none, Precommits := none,
    LastCommitRound := -1, LastCommit := none,
    CatchupCommitRound := -1, CatchupCommit := none }

/-- NewRoundStepMessage (consensus/reactor.go). -/
structure NewRoundStepMessage where
  Height : Int
  Round : Int
  Step : RoundStepType
  SecondsSinceStartTime : Int
  LastCommitRound : Int
deriving Repr, DecidableEq

/-- CommitStepMessage (consensus/reactor.go).  `BlockParts` is a
bit-array pointer carried by the message. -/
structure CommitStepMessage where
  Height : Int
  BlockPartsHeader : PartSetHeader
  BlockParts : Option Ptr
deriving Repr, DecidableEq

/-- HasVoteMessage (consensus/reactor.go).  The Go field `Type` is named
`VType` here because `Type` is reserved in Lean. -/
structure HasVoteMessage where
  Height : Int
  Round : Int
  VType : VoteType
  Index : Nat
deriving Repr, DecidableEq

/-- PeerState.ApplyNewRoundStepMessage (consensus/reactor.go lines
1036-1087), translated statement by statement.  `now` stands for
`time.Now()` measured in seconds.  Note that in the source the final
"Shift Precommits to LastCommit" block reads `ps.Precommits` after the
earlier block has already overwritten it, and this translation preserves
that read order. -/
def applyNewRoundStepMessage (now : Int) (msg : NewRoundStepMessage)
    (ps : PeerRoundState) (h : Heap) : PeerRoundState × Heap :=
  if compareHRS msg.Height msg.Round msg.Step ps.Height ps.Round ps.Step ≤ 0 then
    (ps, h)
  else
    let psHeight := ps.Height
    let psRound := ps.Round
    let psCatchupCommitRound := ps.CatchupCommitRound
    let psCatchupCommit := ps.CatchupCommit
    let startTime := now - msg.SecondsSinceStartTime
    let ps1 := { ps with Height := msg.Height, Round := msg.Round,
                         Step := msg.Step, StartTime := startTime }
    let ps2 :=
      if psHeight ≠ msg.Height ∨ psRound ≠ msg.Round then
        { ps1 with Proposal := false,
                   ProposalBlockPartsHeader := default,
                   ProposalBlockParts := none,
                   ProposalPOLRound := -1,
                   ProposalPOL := none,
                   Prevotes := none,
                   Precommits := none }
      else ps1
    let ps3 :=
      if psHeight = msg.Height ∧ psRound ≠ msg.Round ∧ msg.Round = psCatchupCommitRound then
        { ps2 with Precommits := psCatchupCommit }
      else ps2
    let ps4 :=
      if psHeight ≠ msg.Height then
        if psHeight + 1 = msg.Height ∧ psRound = msg.LastCommitRound then
          { ps3 with LastCommitRound := msg.LastCommitRound,
                     LastCommit := ps3.Precommits,
                     CatchupCommitRound := -1,
                     CatchupCommit := none }
        else
          { ps3 with LastCommitRound := msg.LastCommitRound,
                     LastCommit := none,
                     CatchupCommitRound := -1,
                     CatchupCommit := none }
      else ps3
    (ps4, h)

/-- PeerState.ApplyCommitStepMessage (consensus/reactor.go lines
1090-1100). -/
def applyCommitStepMessage (msg : CommitStepMessage) (ps : PeerRoundState) (h : Heap) :
    PeerRoundState × Heap :=
  if ps.Height ≠ msg.Height then (ps, h)
  else ({ ps with ProposalBlockPartsHeader := msg.BlockPartsHeader,
                  ProposalBlockParts := msg.BlockParts }, h)

/-- PeerState.getVoteBitArray (consensus/reactor.go lines 919-963),
translated branch by branch; the (valid) vote type selects within each
round match, and a matching round whose type cell is nil returns nil
without falling through to later round checks. -/
def getVoteBitArray (ps : PeerRoundState) (height round : Int) (t : VoteType) : Option Ptr :=
  if ps.Height = height then
    if ps.Round = round then
      match t with
      | .prevote => ps.Prevotes
      | .precommit => ps.Precommits
    else if ps.CatchupCommitRound = round then
      match t with
      | .prevote => none
      | .precommit => ps.CatchupCommit
    else if ps.ProposalPOLRound = round then
      match t with
      | .prevote => ps.ProposalPOL
      | .precommit => none
    else none
  else if ps.Height = height + 1 then
    if ps.LastCommitRound = round then
      match t with
      | .prevote => none
      | .precommit => ps.LastCommit
    else none
  else none

/-- PeerState.setHasVote (consensus/reactor.go lines 1027-1033): set the
index in the routed bit array; a nil routed array means no side effect. -/
def setHasVote (ps : PeerRoundState) (h : Heap) (height round : Int) (t : VoteType)
    (index : Nat) : PeerRoundState × Heap :=
  (ps, h.setBit (getVoteBitArray ps height round t) index true)

/-- PeerState.ApplyHasVoteMessage (consensus/reactor.go lines
1120-1129). -/
def applyHasVoteMessage (msg : HasVoteMessage) (ps : PeerRoundState) (h : Heap) :
    PeerRoundState × Heap :=
  if ps.Height ≠ msg.Height then (ps, h)
  else setHasVote ps h msg.Height msg.Round msg.VType msg.Index

/-- PeerState.ensureCatchupCommitRound (consensus/reactor.go lines
966-986).  When the round equals the peer's current round the catchup
commit array becomes the same heap pointer as the precommits array. -/
def ensureCatchupCommitRound (ps : PeerRoundState) (h : Heap) (height round : Int)
    (numValidators : Nat) : PeerRoundState × Heap :=
  if ps.Height ≠ height then (ps, h)
  else if ps.CatchupCommitRound = round then (ps, h)
  else
    let ps1 := { ps with CatchupCommitRound := round }
    if round = ps1.Round then
      ({ ps1 with CatchupCommit := ps1.Precommits }, h)
    else
      let (h2, p) := h.alloc (newBitArray numValidators)
      ({ ps1 with CatchupCommit := some p }, h2)

/-- PeerState.ensureVoteBitArrays (consensus/reactor.go lines 998-1017):
allocate any still-nil bit arrays for the given height. -/
def ensureVoteBitArrays (ps : PeerRoundState) (h : Heap) (height : Int)
    (numValidators : Nat) : PeerRoundState × Heap :=
  if ps.Height = height then
    let (ps, h) :=
      match ps.Prevotes with
      | none => let (h2, p) := h.alloc (newBitArray numValidators)
                ({ ps with Prevotes := some p }, h2)
      | some _ => (ps, h)
    let (ps, h) :=
      match ps.Precommits with
      | none => let (h2, p) := h.alloc (newBitArray numValidators)
                ({ ps with Precommits := some p }, h2)
      | some _ => (ps, h)
    let (ps, h) :=
      match ps.CatchupCommit with
      | none => let (h2, p) := h.alloc (newBitArray numValidators)
                ({ ps with CatchupCommit := some p }, h2)
      | some _ => (ps, h)
    match ps.ProposalPOL with
    | none => let (h2, p) := h.alloc (newBitArray numValidators)
              ({ ps with ProposalPOL := some p }, h2)
    | some _ => (ps, h)
  else if ps.Height = height + 1 then
    match ps.LastCommit with
    | none => let (h2, p) := h.alloc (newBitArray numValidators)
              ({ ps with LastCommit := some p }, h2)
    | some _ => (ps, h)
  else (ps, h)

/-- View of a `types.VoteSetReader` (an interface implemented outside the
covered sources): the accessors the reactor calls — Height, Round, Type,
Size, IsCommit and BitArray.  `GetByIndex` is abstracted by returning the
picked validator index itself. -/
structure VoteSetReader where
  vsHeight : Int
  vsRound : Int
  vsType : VoteType
  vsSize : Nat
  vsIsCommit : Bool
  vsBits : BAData
deriving Repr, DecidableEq

/-- PeerState.PickVoteToSend (consensus/reactor.go lines 892-917).  The
uniformly random `PickRandom` of the bit-array library is abstracted by
the `pick` argument, an arbitrary choice function over bit arrays; the
first component of the result is the picked validator index (`none`
standing for a nil vote). -/
def pickVoteToSend (pick : BAData → Option Nat) (votes : VoteSetReader)
    (ps : PeerRoundState) (h : Heap) : (Option Nat × Bool) × PeerRoundState × Heap :=
  if votes.vsSize = 0 then ((none, false), ps, h)
  else
    let (ps, h) :=
      if votes.vsIsCommit then
        ensureCatchupCommitRound ps h votes.vsHeight votes.vsRound votes.vsSize
      else (ps, h)
    let (ps, h) := ensureVoteBitArrays ps h votes.vsHeight votes.vsSize
    match getVoteBitArray ps votes.vsHeight votes.vsRound votes.vsType with
    | none => ((none, false), ps, h)
    | some psVotes =>
      match pick (votes.vsBits.subBA (h.get psVotes)) with
      | some index =>
        let (ps, h) := setHasVote ps h votes.vsHeight votes.vsRound votes.vsType index
        ((some index, true), ps, h)
      | none => ((none, false), ps, h)

/-- PeerState.GetRoundState (consensus/reactor.go lines 832-838): the Go
source copies the embedded `PeerRoundState` struct and returns a pointer
to the copy; the copy is field-by-field, so the bit-array pointer fields
of the snapshot are the same heap pointers as the peer's. -/
def getRoundState (ps : PeerRoundState) : PeerRoundState := ps

/-- Identifies which local vote set a `PickSendVote` call draws from. -/
inductive VoteSource where
  | lastCommit
  | prevotes (r : Int)
  | precommits (r : Int)
  | polPrevotes (r : Int)
deriving Repr, DecidableEq

/-- The slice of the local `RoundState` that `gossipVotesForHeight`
consults: the local round, together with which prevote sets exist
(`rs.Votes.Prevotes(r) != nil`). -/
structure GossipView where
  gRound : Int
  gPrevotesNonNil : Int → Bool

/-- ConsensusReactor.gossipVotesForHeight (consensus/reactor.go lines
609-643), with `ps.PickSendVote` abstracted by the oracle `send` (true
when a vote was picked and accepted by the peer's send queue).  The first
component records, in order, every vote set a `PickSendVote` call was
made on; the second is the function's return value. -/
def gossipVotesForHeight (send : VoteSource → Bool) (rs : GossipView)
    (prs : PeerRoundState) : List VoteSource × Bool :=
  if prs.Step = RoundStepType.newHeight then
    if send .lastCommit then ([.lastCommit], true)
    else gossipAfterLastCommit send rs prs [.lastCommit]
  else gossipAfterLastCommit send rs prs []
where
  /-- Attempts after the LastCommit attempt (source lines 618-642). -/
  gossipAfterLastCommit (send : VoteSource → Bool) (rs : GossipView)
      (prs : PeerRoundState) (tr : List VoteSource) : List VoteSource × Bool :=
    if prs.Step.toNat ≤ RoundStepType.prevote.toNat ∧ prs.Round ≠ -1 ∧ prs.Round ≤ rs.gRound then
      if send (.prevotes prs.Round) then (tr ++ [.prevotes prs.Round], true)
      else gossipAfterPrevotes send rs prs (tr ++ [.prevotes prs.Round])
    else gossipAfterPrevotes send rs prs tr
  /-- Attempts after the prevote attempt (source lines 625-642). -/
  gossipAfterPrevotes (send : VoteSource → Bool) (rs : GossipView)
      (prs : PeerRoundState) (tr : List VoteSource) : List VoteSource × Bool :=
    if prs.Step.toNat ≤ RoundStepType.precommit.toNat ∧ prs.Round ≠ -1 ∧ prs.Round ≤ rs.gRound then
      if send (.precommits prs.Round) then (tr ++ [.precommits prs.Round], true)
      else gossipAfterPrecommits send rs prs (tr ++ [.precommits prs.Round])
    else gossipAfterPrecommits send rs prs tr
  /-- The POL-prevotes attempt and the final false (source lines
  632-642): guarded both by `ProposalPOLRound != -1` and by the local
  prevote set at that round being non-nil. -/
  gossipAfterPrecommits (send : VoteSource → Bool) (rs : GossipView)
      (prs : PeerRoundState) (tr : List VoteSource) : List VoteSource × Bool :=
    if prs.ProposalPOLRound ≠ -1 ∧ rs.gPrevotesNonNil prs.ProposalPOLRound = true then
      if send (.polPrevotes prs.ProposalPOLRound) then
        (tr ++ [.polPrevotes prs.ProposalPOLRound], true)
      else (tr ++ [.polPrevotes prs.ProposalPOLRound], false)
    else (tr, false)

/-- Runs a list of send attempts in order, stopping at the first success:
the generic shape behind the claim's "attempts sends in exactly this
fixed order and returns true on the first successful send". -/
def runAttempts (send : VoteSource → Bool) : List VoteSource → List VoteSource × Bool
  | [] => ([], false)
  | s :: rest =>
    if send s then ([s], true)
    else
      let r := runAttempts send rest
      (s :: r.1, r.2)

/-- Follows the claim's words: the candidate attempts of
`gossipVotesForHeight` are LastCommit if `prs.Step == NewHeight`,
prevotes at `prs.Round` if `prs.Step ≤ Prevote` and
`prs.Round ≤ rs.Round`, precommits at `prs.Round` if
`prs.Step ≤ Precommit` and `prs.Round ≤ rs.Round`, and POL-round
prevotes if `prs.ProposalPOLRound ≠ −1`. -/
def claimedGossipCandidates (rs : GossipView) (prs : PeerRoundState) : List VoteSource :=
  (if prs.Step = RoundStepType.newHeight then [VoteSource.lastCommit] else []) ++
  (if prs.Step.toNat ≤ RoundStepType.prevote.toNat ∧ prs.Round ≤ rs.gRound then
    [VoteSource.prevotes prs.Round] else []) ++
  (if prs.Step.toNat ≤ RoundStepType.precommit.toNat ∧ prs.Round ≤ rs.gRound then
    [VoteSource.precommits prs.Round] else []) ++
  (if prs.ProposalPOLRound ≠ -1 then [VoteSource.polPrevotes prs.ProposalPOLRound] else [])

/-- Candidate attempts as the source actually guards them: the prevote
and precommit attempts additionally require `prs.Round ≠ -1`, and the
POL attempt additionally requires the local prevote set at the POL round
to be non-nil. -/
def sourceGossipCandidates (rs : GossipView) (prs : PeerRoundState) : List VoteSource :=
  (if prs.Step = RoundStepType.newHeight then [VoteSource.lastCommit] else []) ++
  (if prs.Step.toNat ≤ RoundStepType.prevote.toNat ∧ prs.Round ≠ -1 ∧ prs.Round ≤ rs.gRound then
    [VoteSource.prevotes prs.Round] else []) ++
  (if prs.Step.toNat ≤ RoundStepType.precommit.toNat ∧ prs.Round ≠ -1 ∧ prs.Round ≤ rs.gRound then
    [VoteSource.precommits prs.Round] else []) ++
  (if prs.ProposalPOLRound ≠ -1 ∧ rs.gPrevotesNonNil prs.ProposalPOLRound = true then
    [VoteSource.polPrevotes prs.ProposalPOLRound] else [])

/-- Maximum consensus wire message size (consensus/reactor.go line 26). -/
def maxConsensusMessageSize : Nat := 1048576

/-- Wire type tags (consensus/reactor.go lines 1171-1183). -/
def msgTypeNewRoundStep : UInt8 := 0x01

def msgTypeCommitStep : UInt8 := 0x02

def msgTypeProposal : UInt8 := 0x11

def msgTypeProposalPOL : UInt8 := 0x12

def msgTypeBlockPart : UInt8 := 0x13

def msgTypeVote : UInt8 := 0x14

def msgTypeHasVote : UInt8 := 0x15

def msgTypeVoteSetMaj23 : UInt8 := 0x16

def msgTypeVoteSetBits : UInt8 := 0x17

def msgTypeProposalHeartbeat : UInt8 := 0x20

/-- Decode failures of the wire codec. -/
inductive DecodeError where
  | overLength
  | unknownTag
  | truncated
deriving Repr, DecidableEq

/-- The ten registered concrete message kinds (consensus/reactor.go
lines 1188-1200); payload contents are not needed by the claims below,
so a decoded message is represented by its kind. -/
inductive WireKind where
  | newRoundStep
  | commitStep
  | proposal
  | proposalPOL
  | blockPart
  | vote
  | hasVote
  | voteSetMaj23
  | voteSetBits
  | proposalHeartbeat
deriving Repr, DecidableEq

/-- Registered-interface lookup: byte tag to message kind, per the
`wire.RegisterInterface` table (consensus/reactor.go lines 1188-1200). -/
def kindOfTag (b : UInt8) : Option WireKind :=
  if b = msgTypeNewRoundStep then some .newRoundStep
  else if b = msgTypeCommitStep then some .commitStep
  else if b = msgTypeProposal then some .proposal
  else if b = msgTypeProposalPOL then some .proposalPOL
  else if b = msgTypeBlockPart then some .blockPart
  else if b = msgTypeVote then some .vote
  else if b = msgTypeHasVote then some .hasVote
  else if b = msgTypeVoteSetMaj23 then some .voteSetMaj23
  else if b = msgTypeVoteSetBits then some .voteSetBits
  else if b = msgTypeProposalHeartbeat then some .proposalHeartbeat
  else none

/-- Modelled from the spec: `wire.ReadBinary` on the registered tagged
union is an external dependency; per the spec's codec section it reads
the 1-byte tag then a length-bounded body (maximum 1 MiB), failing with a
decode error — never a panic — on over-length input or an unknown tag. -/
def readBinary (bz : List UInt8) : Except DecodeError WireKind :=
  if bz.length > maxConsensusMessageSize then .error .overLength
  else
    match bz with
    | [] => .error .truncated
    | t :: _ =>
      match kindOfTag t with
      | some k => .ok k
      | none => .error .unknownTag

/-- DecodeMessage (consensus/reactor.go lines 1204-1211).  The source
begins with `msgType = bz[0]`, which for an empty byte slice is a Go
run-time panic (index out of range): the outer `none` models that panic;
otherwise the result is the leading tag byte paired with the
`wire.ReadBinary` outcome. -/
def DecodeMessage (bz : List UInt8) : Option (UInt8 × Except DecodeError WireKind) :=
  match bz with
  | [] => none
  | t :: rest => some (t, readBinary (t :: rest))

/-- Transaction event payload (types/events.go): height, the transaction,
the app response data, log and code. -/
structure EventDataTx where
  txHeight : Int
  txId : Nat
  txData : List UInt8
  txLog : Nat
  txCode : Nat
deriving Repr, DecidableEq

/-- State of a TxEventBuffer together with the trace of events actually
delivered to the underlying publisher, in delivery order. -/
structure BufState where
  buf : List EventDataTx
  delivered : List EventDataTx
deriving Repr, DecidableEq

/-- TxEventBuffer.PublishEventTx (the buffer source, lines 25-28):
append to the buffer, deliver nothing, return nil error. -/
def publishEventTx (s : BufState) (e : EventDataTx) : BufState × Bool :=
  ({ s with buf := s.buf ++ [e] }, false)

/-- Apply a whole sequence of `PublishEventTx` calls. -/
def publishAll (s : BufState) (es : List EventDataTx) : BufState :=
  es.foldl (fun s e => (publishEventTx s e).1) s

/-- The `for` loop of TxEventBuffer.Flush: walk the cached events in
insertion order calling the underlying bus's publish (`pub e = true`
means that publish returned an error); the result is the list of events
delivered before the first error, and whether an error occurred. -/
def flushLoop (pub : EventDataTx → Bool) : List EventDataTx → List EventDataTx × Bool
  | [] => ([], false)
  | e :: rest =>
    if pub e then ([], true)
    else
      let r := flushLoop pub rest
      (e :: r.1, r.2)

/-- TxEventBuffer.Flush (the buffer source, lines 32-41): on the first
underlying error return it immediately, leaving the cached events as they
were; only after a complete successful pass is the buffer reset to a
fresh empty slice. -/
def flush (pub : EventDataTx → Bool) (s : BufState) : BufState × Bool :=
  let r := flushLoop pub s.buf
  if r.2 then ({ s with delivered := s.delivered ++ r.1 }, true)
  else ({ buf := [], delivered := s.delivered ++ r.1 }, false)

/-- ABCI result (code, data, log) as carried in
`ResultBroadcastTxCommit`; the zero value stands for `abci.Result{}`. -/
structure AbciResult where
  code : Nat
  rdata : List UInt8
  rlog : Nat
deriving Repr, DecidableEq

/-- The OK ABCI code (`abci.CodeType_OK`). -/
def abciCodeOK : Nat := 0

/-- ResultBroadcastTxCommit (rpc/core/types): CheckTx result, DeliverTx
result, tx hash and inclusion height. -/
structure ResultBroadcastTxCommit where
  checkTx : AbciResult
  deliverTx : AbciResult
  hash : Nat
  height : Int
deriving Repr, DecidableEq

/-- Subscribe-context timeout of BroadcastTxCommit in milliseconds
(rpc/core/mempool.go line 53: `10*time.Millisecond`). -/
def subscribeTimeoutMillis : Nat := 10

/-- Wait-for-inclusion timer of BroadcastTxCommit in seconds
(rpc/core/mempool.go line 90: `60 * 2 * time.Second`). -/
def commitTimerSeconds : Nat := 60 * 2

/-- Environment outcomes BroadcastTxCommit depends on: whether the event
bus subscription failed, whether handing the tx to the mempool failed,
the CheckTx response, and the DeliverTx event observed on the
subscription channel within `commitTimerSeconds` (none on timeout). -/
structure BroadcastEnv where
  subscribeFails : Bool
  checkTxCallFails : Bool
  checkTxResponse : AbciResult
  deliverWithinTimer : Option EventDataTx
deriving Repr, DecidableEq

/-- BroadcastTxCommit (rpc/core/mempool.go lines 51-115) for a tx with
hash `txHash`, with the concurrent environment resolved by `env`.  The
first component is the returned result pointer (`none` for Go's nil) and
the second is whether the returned error is non-nil. -/
def broadcastTxCommit (env : BroadcastEnv) (txHash : Nat) :
    Option ResultBroadcastTxCommit × Bool :=
  if env.subscribeFails then (none, true)
  else if env.checkTxCallFails then (none, true)
  else if env.checkTxResponse.code ≠ abciCodeOK then
    (some { checkTx := env.checkTxResponse, deliverTx := ⟨0, [], 0⟩,
            hash := txHash, height := 0 }, false)
  else
    match env.deliverWithinTimer with
    | some ev =>
      (some { checkTx := env.checkTxResponse,
              deliverTx := ⟨ev.txCode, ev.txData, ev.txLog⟩,
              hash := txHash, height := ev.txHeight }, false)
    | none =>
      (some { checkTx := env.checkTxResponse, deliverTx := ⟨0, [], 0⟩,
              hash := txHash, height := 0 }, true)

/-- The (Height, Round, Step-rank) triple of a peer round state. -/
def hrsOf (ps : PeerRoundState) : Int × Int × Nat :=
  (ps.Height, ps.Round, ps.Step.toNat)

/-- Lexicographic order on (Height, Round, Step-rank) triples. -/
def hrsLE (a b : Int × Int × Nat) : Prop :=
  a.1 < b.1 ∨ (a.1 = b.1 ∧ (a.2.1 < b.2.1 ∨ (a.2.1 = b.2.1 ∧ a.2.2 ≤ b.2.2)))

/-- State-channel messages that mutate a `PeerState` (NewRoundStep,
CommitStep, HasVote — the state-channel messages routed to `ps.Apply*` by
Receive); a NewRoundStep application carries its arrival time. -/
inductive StateChMsg where
  | newRoundStep (now : Int) (m : NewRoundStepMessage)
  | commitStep (m : CommitStepMessage)
  | hasVote (m : HasVoteMessage)

/-- Apply one state-channel message to a peer state and heap, as
Receive's StateChannel dispatch does. -/
def applyStateChMsg (m : StateChMsg) (s : PeerRoundState × Heap) : PeerRoundState × Heap :=
  match m with
  | .newRoundStep now msg => applyNewRoundStepMessage now msg s.1 s.2
  | .commitStep msg => applyCommitStepMessage msg s.1 s.2
  | .hasVote msg => applyHasVoteMessage msg s.1 s.2

/-- Apply a sequence of state-channel messages in order. -/
def applyStateChMsgs (ms : List StateChMsg) (s : PeerRoundState × Heap) :
    PeerRoundState × Heap :=
  ms.foldl (fun s m => applyStateChMsg m s) s

theorem hrsLE_refl (a : Int × Int × Nat) : hrsLE a a := by
  simp [hrsLE]

theorem hrsLE_trans {a b c : Int × Int × Nat} (h1 : hrsLE a b) (h2 : hrsLE b c) :
    hrsLE a c := by
  unfold hrsLE at *
  rcases h1 with h1 | ⟨e1, h1⟩ <;> rcases h2 with h2 | ⟨e2, h2⟩ <;>
    [skip; skip; skip; rcases h1 with h1 | ⟨f1, h1⟩] <;> omega

theorem compareHRS_pos {mh mr : Int} {ms : RoundStepType} {ph pr : Int}
    {ps : RoundStepType} (h : ¬ compareHRS mh mr ms ph pr ps ≤ 0) :
    hrsLE (ph, pr, ps.toNat) (mh, mr, ms.toNat) := by
  unfold compareHRS at h
  unfold hrsLE
  dsimp only
  split_ifs at h <;> omega

theorem applyNewRoundStep_hrs (now : Int) (msg : NewRoundStepMessage)
    (ps : PeerRoundState) (h : Heap) :
    hrsOf (applyNewRoundStepMessage now msg ps h).1 =
      if compareHRS msg.Height msg.Round msg.Step ps.Height ps.Round ps.Step ≤ 0
      then hrsOf ps else (msg.Height, msg.Round, msg.Step.toNat) := by
  unfold applyNewRoundStepMessage hrsOf
  by_cases hc : compareHRS msg.Height msg.Round msg.Step ps.Height ps.Round ps.Step ≤ 0
  · rw [if_pos hc, if_pos hc]
  · rw [if_neg hc, if_neg hc]
    dsimp only
    split_ifs <;> rfl

theorem applyStateChMsg_mono (m : StateChMsg) (s : PeerRoundState × Heap) :
    hrsLE (hrsOf s.1) (hrsOf (applyStateChMsg m s).1) := by
  cases m with
  | newRoundStep now msg =>
    show hrsLE (hrsOf s.1) (hrsOf (applyNewRoundStepMessage now msg s.1 s.2).1)
    rw [applyNewRoundStep_hrs]
    by_cases hc : compareHRS msg.Height msg.Round msg.Step s.1.Height s.1.Round s.1.Step ≤ 0
    · rw [if_pos hc]; exact hrsLE_refl _
    · rw [if_neg hc]; exact compareHRS_pos hc
  | commitStep msg =>
    simp only [applyStateChMsg, applyCommitStepMessage]
    split_ifs <;> simp [hrsOf, hrsLE_refl]
  | hasVote msg =>
    simp only [applyStateChMsg, applyHasVoteMessage, setHasVote]
    split_ifs <;> simp [hrsOf, hrsLE_refl]

/-- C1: over every sequence of applied state-channel messages, a peer's
(Height, Round, Step) is non-decreasing in lexicographic order, and a
NewRoundStepMessage comparing less than or equal to the current triple
leaves the whole PeerRoundState (and the heap) unchanged. -/
theorem peerState_hrs_monotone :
    (∀ (ms : List StateChMsg) (s : PeerRoundState × Heap),
      hrsLE (hrsOf s.1) (hrsOf (applyStateChMsgs ms s).1)) ∧
    (∀ (now : Int) (msg : NewRoundStepMessage) (ps : PeerRoundState) (h : Heap),
      compareHRS msg.Height msg.Round msg.Step ps.Height ps.Round ps.Step ≤ 0 →
      applyNewRoundStepMessage now msg ps h = (ps, h)) := by
  constructor
  · intro ms
    induction ms with
    | nil => intro s; exact hrsLE_refl _
    | cons m rest ih =>
      intro s
      exact hrsLE_trans (applyStateChMsg_mono m s)
        (by simpa [applyStateChMsgs] using ih (applyStateChMsg m s))
  · intro now msg ps h hc
    unfold applyNewRoundStepMessage
    rw [if_pos hc]

/-- Witness for C1 at concrete inputs: three messages applied to the
fresh peer state keep the HRS triple non-decreasing, and the spec's
regression scenario — a peer at (5, 2, Prevote) receiving
NewRoundStep(5, 1, Commit) — is a complete no-op. -/
theorem peerState_hrs_monotone_witness :
    hrsLE (hrsOf initialPeerRoundState)
      (hrsOf (applyStateChMsgs
        [.newRoundStep 0 ⟨5, 2, .prevote, 0, -1⟩,
         .hasVote ⟨5, 2, .prevote, 0⟩,
         .newRoundStep 1 ⟨5, 1, .commit, 0, -1⟩]
        (initialPeerRoundState, ⟨[]⟩)).1) ∧
    applyNewRoundStepMessage 0 ⟨5, 1, .commit, 0, -1⟩
      { initialPeerRoundState with Height := 5, Round := 2, Step := .prevote } ⟨[]⟩ =
      ({ initialPeerRoundState with Height := 5, Round := 2, Step := .prevote }, ⟨[]⟩) :=
  ⟨peerState_hrs_monotone.1 _ _, peerState_hrs_monotone.2 0 _ _ _ (by decide)⟩

/-- Peer state of the C2 scenario: a peer at (H=10, R=3, Step=Commit)
whose Precommits bit array B3 lives at heap pointer 0. -/
def c2Ps : PeerRoundState :=
  { initialPeerRoundState with Height := 10, Round := 3, Step := .commit,
                               Precommits := some 0 }

/-- Heap of the C2 scenario: pointer 0 holds B3 = [true, false, true]. -/
def c2Heap : Heap := ⟨[⟨[true, false, true]⟩]⟩

/-- C2 (failing input evaluated): the peer of the scenario receives
NewRoundStep(H=11, R=0, Step=NewHeight, LastCommitRound=3).  The claim
(and the source's own comment "Shift Precommits to LastCommit") expects
LastCommit to become B3, but the height-change branch at reactor.go:1064
has already overwritten `ps.Precommits` with nil before reactor.go:1078
reads it, so LastCommit ends up nil — only LastCommitRound is kept. -/
theorem applyNewRoundStep_loses_lastCommit :
    (applyNewRoundStepMessage 0 ⟨11, 0, .newHeight, 0, 3⟩ c2Ps c2Heap).1.LastCommitRound = 3 ∧
    (applyNewRoundStepMessage 0 ⟨11, 0, .newHeight, 0, 3⟩ c2Ps c2Heap).1.Precommits = none ∧
    (applyNewRoundStepMessage 0 ⟨11, 0, .newHeight, 0, 3⟩ c2Ps c2Heap).1.LastCommit = none := by
  decide

/-- C3 counterexample: on the empty byte string `DecodeMessage` hits the
unguarded `bz[0]` and panics (the `none` result), so the claim that it is
total on every input byte string fails at the explicit input `[]`. -/
theorem decodeMessage_empty_panics : DecodeMessage [] = none := rfl

/-- C3 amended: on every non-empty input `DecodeMessage` neither panics
nor aborts; an over-length frame yields a DecodeError, and an in-bound
frame with an unknown type tag yields a DecodeError, never a message. -/
theorem decodeMessage_total_nonempty (t : UInt8) (rest : List UInt8) :
    (DecodeMessage (t :: rest)).isSome = true ∧
    ((t :: rest).length > maxConsensusMessageSize →
      DecodeMessage (t :: rest) = some (t, .error .overLength)) ∧
    ((t :: rest).length ≤ maxConsensusMessageSize → kindOfTag t = none →
      DecodeMessage (t :: rest) = some (t, .error .unknownTag)) := by
  refine ⟨rfl, ?_, ?_⟩
  · intro hlen
    simp only [DecodeMessage, readBinary, if_pos hlen]
  · intro hlen htag
    have hnl : ¬ (t :: rest).length > maxConsensusMessageSize := by omega
    simp only [DecodeMessage, readBinary, if_neg hnl, htag]

/-- Witness for the amended C3 at concrete inputs: the spec's unknown-tag
scenario `[0xEE]` decodes to a DecodeError, and a frame one byte past the
1 MiB bound decodes to an over-length DecodeError. -/
theorem decodeMessage_total_nonempty_witness :
    DecodeMessage [0xEE] = some (0xEE, .error .unknownTag) ∧
    DecodeMessage (0x01 :: List.replicate maxConsensusMessageSize 0) =
      some (0x01, .error .overLength) :=
  ⟨(decodeMessage_total_nonempty 0xEE []).2.2 (by decide) (by decide),
   (decodeMessage_total_nonempty 0x01 _).2.1
     (by rw [List.length_cons, List.length_replicate]; omega)⟩

/-- Follows the claim's words: the vote-routing matrix row by row —
Prevotes/Precommits when the peer's height and round both match,
CatchupCommit when the height matches and the round is the catchup-commit
round with a precommit, ProposalPOL when the height matches and the round
is the POL round with a prevote, LastCommit when the peer is one height
ahead at the last-commit round with a precommit, and nil otherwise. -/
def claimedVoteMatrix (ps : PeerRoundState) (height round : Int) (t : VoteType) :
    Option Ptr :=
  if ps.Height = height ∧ ps.Round = round ∧ t = .prevote then ps.Prevotes
  else if ps.Height = height ∧ ps.Round = round ∧ t = .precommit then ps.Precommits
  else if ps.Height = height ∧ ps.CatchupCommitRound = round ∧ t = .precommit then
    ps.CatchupCommit
  else if ps.Height = height ∧ ps.ProposalPOLRound = round ∧ t = .prevote then
    ps.ProposalPOL
  else if ps.Height = height + 1 ∧ ps.LastCommitRound = round ∧ t = .precommit then
    ps.LastCommit
  else none

/-- The claimed matrix amended where the counterexample forces it: a
prevote whose round matches the catchup-commit round (but not the peer's
current round) routes to nil, even when the round also matches the POL
round — so the ProposalPOL row additionally requires the round to differ
from the catchup-commit round. -/
def amendedVoteMatrix (ps : PeerRoundState) (height round : Int) (t : VoteType) :
    Option Ptr :=
  if ps.Height = height ∧ ps.Round = round ∧ t = .prevote then ps.Prevotes
  else if ps.Height = height ∧ ps.Round = round ∧ t = .precommit then ps.Precommits
  else if ps.Height = height ∧ ps.CatchupCommitRound = round ∧ t = .precommit then
    ps.CatchupCommit
  else if ps.Height = height ∧ ps.CatchupCommitRound ≠ round ∧
          ps.ProposalPOLRound = round ∧ t = .prevote then
    ps.ProposalPOL
  else if ps.Height = height + 1 ∧ ps.LastCommitRound = round ∧ t = .precommit then
    ps.LastCommit
  else none

/-- Peer state of the C4 counterexample: at height 5 round 1, with both
the catchup-commit round and the POL round equal to 2 and a non-nil
ProposalPOL array at heap pointer 0. -/
def c4Ps : PeerRoundState :=
  { initialPeerRoundState with Height := 5, Round := 1,
                               CatchupCommitRound := 2, ProposalPOLRound := 2,
                               ProposalPOL := some 0 }

/-- Heap of the C4 counterexample: one single-bit array, still clear. -/
def c4Heap : Heap := ⟨[⟨[false]⟩]⟩

/-- C4 counterexample: for a prevote at (5, 2, index 0) the claim's
matrix routes to the non-nil ProposalPOL array and demands its bit be
set, but the source's `getVoteBitArray` answers nil from the
catchup-commit-round branch and `setHasVote` changes nothing — the state
the claim requires differs from the state the source produces. -/
theorem setHasVote_matrix_counterexample :
    claimedVoteMatrix c4Ps 5 2 .prevote = some 0 ∧
    setHasVote c4Ps c4Heap 5 2 .prevote 0 = (c4Ps, c4Heap) ∧
    Heap.setBit c4Heap (claimedVoteMatrix c4Ps 5 2 .prevote) 0 true ≠ c4Heap := by
  decide

/-- C4 amended: `setHasVote(H, R, type, index)` leaves the round-state
record untouched and sets exactly the bit chosen by the amended routing
matrix; when the matrix routes to a nil bit-array, the heap too is
unchanged, so the whole peer state is unchanged. -/
theorem setHasVote_follows_matrix :
    ∀ (ps : PeerRoundState) (h : Heap) (height round : Int) (t : VoteType) (i : Nat),
      getVoteBitArray ps height round t = amendedVoteMatrix ps height round t ∧
      setHasVote ps h height round t i =
        (ps, h.setBit (amendedVoteMatrix ps height round t) i true) ∧
      (amendedVoteMatrix ps height round t = none →
        setHasVote ps h height round t i = (ps, h)) := by
  intro ps h height round t i
  have hm : getVoteBitArray ps height round t = amendedVoteMatrix ps height round t := by
    unfold getVoteBitArray amendedVoteMatrix
    cases t <;> split_ifs <;> simp_all
  refine ⟨hm, ?_, ?_⟩
  · unfold setHasVote
    rw [hm]
  · intro hnone
    unfold setHasVote
    rw [hm, hnone]
    rfl

/-- Witness for the amended C4 at a concrete input: a prevote for the
current (height, round) of a peer sets the matching bit of its Prevotes
array, and a vote the matrix routes to nil leaves the state unchanged. -/
theorem setHasVote_follows_matrix_witness :
    setHasVote { initialPeerRoundState with Height := 5, Round := 1, Prevotes := some 0 }
        ⟨[⟨[false, false]⟩]⟩ 5 1 .prevote 1 =
      ({ initialPeerRoundState with Height := 5, Round := 1, Prevotes := some 0 },
        ⟨[⟨[false, true]⟩]⟩) ∧
    setHasVote c4Ps c4Heap 5 2 .prevote 0 = (c4Ps, c4Heap) :=
  ⟨by rw [(setHasVote_follows_matrix _ ⟨[⟨[false, false]⟩]⟩ 5 1 .prevote 1).2.1]; decide,
   (setHasVote_follows_matrix c4Ps c4Heap 5 2 .prevote 0).2.2 (by decide)⟩

/-- Peer state of the C5 scenario: a peer at (H=10, R=2) whose Prevotes
and Precommits arrays live at heap pointers 0 and 1. -/
def c5Ps : PeerRoundState :=
  { initialPeerRoundState with Height := 10, Round := 2,
                               Prevotes := some 0, Precommits := some 1 }

/-- Heap of the C5 scenario: the peer's prevote array (clear) and its
precommit array B with one bit set. -/
def c5Heap : Heap := ⟨[newBitArray 3, ⟨[true, false, false]⟩]⟩

/-- Commit vote set of the C5 scenario: a commit-vote-set at height 10,
round 2 over three validators, all three precommits present. -/
def c5Votes : VoteSetReader :=
  { vsHeight := 10, vsRound := 2, vsType := .precommit, vsSize := 3,
    vsIsCommit := true, vsBits := ⟨[true, true, true]⟩ }

/-- C5: ensureCatchupCommitRound is a no-op when the height differs or
the catchup-commit round already equals the round; otherwise it records
the round and either aliases CatchupCommit to the very same Precommits
pointer (when the round is the peer's current round) or allocates a
fresh bit array of the given size — and in the scenario, PickVoteToSend
of a commit vote-set at the peer's round leaves CatchupCommit the same
bit-array instance as Precommits, whatever the random pick does. -/
theorem ensureCatchupCommitRound_spec :
    (∀ (ps : PeerRoundState) (h : Heap) (height round : Int) (n : Nat),
      (ps.Height ≠ height → ensureCatchupCommitRound ps h height round n = (ps, h)) ∧
      (ps.Height = height → ps.CatchupCommitRound = round →
        ensureCatchupCommitRound ps h height round n = (ps, h)) ∧
      (ps.Height = height → ps.CatchupCommitRound ≠ round → round = ps.Round →
        ensureCatchupCommitRound ps h height round n =
          ({ ps with CatchupCommitRound := round, CatchupCommit := ps.Precommits }, h)) ∧
      (ps.Height = height → ps.CatchupCommitRound ≠ round → round ≠ ps.Round →
        ensureCatchupCommitRound ps h height round n =
          ({ ps with CatchupCommitRound := round, CatchupCommit := some h.arrays.length },
            ⟨h.arrays ++ [newBitArray n]⟩))) ∧
    (∀ pick : BAData → Option Nat,
      (pickVoteToSend pick c5Votes c5Ps c5Heap).2.1.CatchupCommit = c5Ps.Precommits ∧
      (pickVoteToSend pick c5Votes c5Ps c5Heap).2.1.CatchupCommitRound = 2) := by
  constructor
  · intro ps h height round n
    refine ⟨?_, ?_, ?_, ?_⟩
    · intro hne
      unfold ensureCatchupCommitRound
      rw [if_pos hne]
    · intro hh hr
      unfold ensureCatchupCommitRound
      rw [if_neg (by simp [hh]), if_pos hr]
    · intro hh hr heq
      unfold ensureCatchupCommitRound
      rw [if_neg (by simp [hh]), if_neg hr, if_pos heq]
    · intro hh hr hne
      unfold ensureCatchupCommitRound
      rw [if_neg (by simp [hh]), if_neg hr, if_neg hne]
      rfl
  · intro pick
    cases hp : pick ⟨[false, true, true]⟩ <;>
      simp +decide [pickVoteToSend, ensureCatchupCommitRound, ensureVoteBitArrays,
        getVoteBitArray, setHasVote, Heap.setBit, Heap.setArr, Heap.get, Heap.alloc,
        newBitArray, BAData.subBA, subBits, BAData.setIndex, c5Ps, c5Heap, c5Votes, hp,
        initialPeerRoundState]

/-- Witness for C5 at concrete inputs: all four ensureCatchupCommitRound
cases evaluated, plus the scenario with a pick that always takes bit 1. -/
theorem ensureCatchupCommitRound_spec_witness :
    ensureCatchupCommitRound c5Ps c5Heap 9 2 3 = (c5Ps, c5Heap) ∧
    ensureCatchupCommitRound { c5Ps with CatchupCommitRound := 2 } c5Heap 10 2 3 =
      ({ c5Ps with CatchupCommitRound := 2 }, c5Heap) ∧
    ensureCatchupCommitRound c5Ps c5Heap 10 2 3 =
      ({ c5Ps with CatchupCommitRound := 2, CatchupCommit := c5Ps.Precommits }, c5Heap) ∧
    ensureCatchupCommitRound c5Ps c5Heap 10 3 3 =
      ({ c5Ps with CatchupCommitRound := 3, CatchupCommit := some 2 },
        ⟨c5Heap.arrays ++ [newBitArray 3]⟩) ∧
    (pickVoteToSend (fun _ => some 1) c5Votes c5Ps c5Heap).2.1.CatchupCommit =
      c5Ps.Precommits :=
  ⟨((ensureCatchupCommitRound_spec.1 c5Ps c5Heap 9 2 3).1 (by decide)),
   ((ensureCatchupCommitRound_spec.1 _ c5Heap 10 2 3).2.1 (by decide) (by decide)),
   ((ensureCatchupCommitRound_spec.1 c5Ps c5Heap 10 2 3).2.2.1 (by decide) (by decide)
      (by decide)),
   ((ensureCatchupCommitRound_spec.1 c5Ps c5Heap 10 3 3).2.2.2 (by decide) (by decide)
      (by decide)),
   (ensureCatchupCommitRound_spec.2 (fun _ => some 1)).1⟩

/-- C10: on a vote set whose Size() is zero, PickVoteToSend returns
(nil, false) at once and the whole peer state — round-state record and
heap alike — is untouched, commit vote set or not. -/
theorem pickVoteToSend_empty_noop :
    ∀ (pick : BAData → Option Nat) (votes : VoteSetReader) (ps : PeerRoundState)
      (h : Heap), votes.vsSize = 0 →
      pickVoteToSend pick votes ps h = ((none, false), ps, h) := by
  intro pick votes ps h hs
  unfold pickVoteToSend
  rw [if_pos hs]

/-- Witness for C10 at a concrete input: an empty commit vote-set picked
against the fresh peer state changes nothing. -/
theorem pickVoteToSend_empty_noop_witness :
    pickVoteToSend (fun _ => some 0) ⟨10, 2, .precommit, 0, true, ⟨[]⟩⟩
        initialPeerRoundState ⟨[]⟩ =
      ((none, false), initialPeerRoundState, ⟨[]⟩) :=
  pickVoteToSend_empty_noop (fun _ => some 0) _ initialPeerRoundState ⟨[]⟩ rfl

/-- Peer state of the C6 counterexample: its Precommits array lives at
heap pointer 0 and is still clear. -/
def c6Ps : PeerRoundState :=
  { initialPeerRoundState with Height := 4, Round := 0, Precommits := some 0 }

/-- Heap of the C6 counterexample: one single-bit array, clear. -/
def c6Heap : Heap := ⟨[⟨[false]⟩]⟩

/-- C6 counterexample: the snapshot returned by GetRoundState carries the
peer's own Precommits pointer, so a caller setting bit 0 through the
snapshot's Precommits changes the very array the peer state observes
through its own pointer — the claim that no caller mutation on the
returned value (bit-array fields included) changes the PeerState fails
at this explicit input. -/
theorem getRoundState_counterexample :
    (getRoundState c6Ps).Precommits = c6Ps.Precommits ∧
    c6Ps.Precommits = some 0 ∧
    (c6Heap.setBit ((getRoundState c6Ps).Precommits) 0 true).get 0 ≠ c6Heap.get 0 := by
  decide

/-- C6 amended: GetRoundState returns a shallow value-copy — the
snapshot is the peer's PeerRoundState record itself (so replacing fields
of the snapshot cannot alter the peer's record), but the bit-array
pointer fields are shared, so a caller write through the snapshot's
Precommits (or ProposalBlockParts) pointer is observed by the peer state
through its own pointer. -/
theorem getRoundState_shallow_copy :
    ∀ (ps : PeerRoundState) (h : Heap) (i : Nat) (v : Bool) (p : Ptr),
      getRoundState ps = ps ∧
      (ps.Precommits = some p →
        (h.setBit ((getRoundState ps).Precommits) i v).get p = (h.get p).setIndex i v) ∧
      (ps.ProposalBlockParts = some p →
        (h.setBit ((getRoundState ps).ProposalBlockParts) i v).get p =
          (h.get p).setIndex i v) := by
  intro ps h i v p
  have key : ∀ q : Option Ptr, q = some p →
      (h.setBit q i v).get p = (h.get p).setIndex i v := by
    intro q hq
    subst hq
    simp only [Heap.setBit, Heap.get, Heap.setArr]
    rcases Nat.lt_or_ge p h.arrays.length with hlt | hge
    · simp [List.getD, List.getElem?_set_eq_of_lt _ hlt]
    · rw [List.set_eq_of_length_le hge, List.getD_eq_default _ _ hge]
      simp [BAData.setIndex]
  exact ⟨rfl, fun hp => key _ hp, fun hp => key _ hp⟩

/-- Witness for the amended C6 at the counterexample input: the caller's
write through the snapshot pointer lands in the array the peer points
to. -/
theorem getRoundState_shallow_copy_witness :
    (c6Heap.setBit ((getRoundState c6Ps).Precommits) 0 true).get 0 =
      (c6Heap.get 0).setIndex 0 true :=
  (getRoundState_shallow_copy c6Ps c6Heap 0 true 0).2.1 rfl

theorem flushLoop_all_ok (pub : EventDataTx → Bool) :
    ∀ l : List EventDataTx, (∀ e ∈ l, pub e = false) → flushLoop pub l = (l, false) := by
  intro l
  induction l with
  | nil => intro _; rfl
  | cons e rest ih =>
    intro hall
    have he : pub e = false := hall e (List.mem_cons_self e rest)
    have hr := ih (fun x hx => hall x (List.mem_cons_of_mem e hx))
    simp [flushLoop, he, hr]

theorem flushLoop_first_error (pub : EventDataTx → Bool) :
    ∀ (pre : List EventDataTx) (e : EventDataTx) (post : List EventDataTx),
      (∀ x ∈ pre, pub x = false) → pub e = true →
      flushLoop pub (pre ++ e :: post) = (pre, true) := by
  intro pre
  induction pre with
  | nil => intro e post _ he; simp [flushLoop, he]
  | cons a as ih =>
    intro e post hall he
    have ha : pub a = false := hall a (List.mem_cons_self a as)
    have hr := ih e post (fun x hx => hall x (List.mem_cons_of_mem a hx)) he
    simp [flushLoop, ha, hr]

theorem publishAll_spec (es : List EventDataTx) :
    ∀ s : BufState, publishAll s es = ⟨s.buf ++ es, s.delivered⟩ := by
  induction es with
  | nil => intro s; simp [publishAll]
  | cons e rest ih =>
    intro s
    simp [publishAll, publishEventTx] at *
    simpa using ih ⟨s.buf ++ [e], s.delivered⟩

/-- C7: events published through the TxEventBuffer only accumulate — the
underlying publisher sees nothing until Flush; a fully successful Flush
delivers exactly the cached events in insertion order and resets the
buffer; the first delivery error short-circuits Flush, delivering only
the events before it and leaving the cached list as it was; and a second
Flush right after a successful one delivers nothing. -/
theorem txEventBuffer_spec :
    ∀ (s : BufState) (es : List EventDataTx) (pub : EventDataTx → Bool),
      (publishAll s es).delivered = s.delivered ∧
      (publishAll s es).buf = s.buf ++ es ∧
      ((∀ e ∈ s.buf, pub e = false) →
        flush pub s = (⟨[], s.delivered ++ s.buf⟩, false)) ∧
      (∀ pre e post, s.buf = pre ++ e :: post → (∀ x ∈ pre, pub x = false) →
        pub e = true →
        flush pub s = ({ s with delivered := s.delivered ++ pre }, true)) ∧
      ((∀ e ∈ s.buf, pub e = false) →
        flush pub (flush pub s).1 = ((flush pub s).1, false)) := by
  intro s es pub
  refine ⟨?_, ?_, ?_, ?_, ?_⟩
  · rw [publishAll_spec]
  · rw [publishAll_spec]
  · intro hok
    simp [flush, flushLoop_all_ok pub s.buf hok]
  · intro pre e post hsplit hok herr
    simp [flush, hsplit, flushLoop_first_error pub pre e post hok herr]
  · intro hok
    simp [flush, flushLoop_all_ok pub s.buf hok, flushLoop]

/-- Witness for C7 at concrete inputs: three transactions buffered with
no deliveries, then flushed in insertion order with the buffer reset; and
on a publisher failing at the second event, only the first is delivered
and the buffer is left intact. -/
theorem txEventBuffer_spec_witness :
    (publishAll ⟨[], []⟩ [⟨1, 1, [], 0, 0⟩, ⟨1, 2, [], 0, 0⟩, ⟨1, 3, [], 0, 0⟩]).delivered
        = [] ∧
    (publishAll ⟨[], []⟩ [⟨1, 1, [], 0, 0⟩, ⟨1, 2, [], 0, 0⟩, ⟨1, 3, [], 0, 0⟩]).buf =
      [⟨1, 1, [], 0, 0⟩, ⟨1, 2, [], 0, 0⟩, ⟨1, 3, [], 0, 0⟩] ∧
    flush (fun _ => false)
        ⟨[⟨1, 1, [], 0, 0⟩, ⟨1, 2, [], 0, 0⟩, ⟨1, 3, [], 0, 0⟩], []⟩ =
      (⟨[], [⟨1, 1, [], 0, 0⟩, ⟨1, 2, [], 0, 0⟩, ⟨1, 3, [], 0, 0⟩]⟩, false) ∧
    flush (fun e => decide (e.txId = 2))
        ⟨[⟨1, 1, [], 0, 0⟩, ⟨1, 2, [], 0, 0⟩, ⟨1, 3, [], 0, 0⟩], []⟩ =
      (⟨[⟨1, 1, [], 0, 0⟩, ⟨1, 2, [], 0, 0⟩, ⟨1, 3, [], 0, 0⟩], [⟨1, 1, [], 0, 0⟩]⟩,
        true) ∧
    flush (fun _ => false)
        (flush (fun _ => false)
          ⟨[⟨1, 1, [], 0, 0⟩, ⟨1, 2, [], 0, 0⟩, ⟨1, 3, [], 0, 0⟩], []⟩).1 =
      ((flush (fun _ => false)
          ⟨[⟨1, 1, [], 0, 0⟩, ⟨1, 2, [], 0, 0⟩, ⟨1, 3, [], 0, 0⟩], []⟩).1, false) :=
  ⟨(txEventBuffer_spec ⟨[], []⟩ _ (fun _ => false)).1,
   (txEventBuffer_spec ⟨[], []⟩ _ (fun _ => false)).2.1,
   (txEventBuffer_spec _ [] (fun _ => false)).2.2.1 (by decide),
   (txEventBuffer_spec _ [] (fun e => decide (e.txId = 2))).2.2.2.1
     [⟨1, 1, [], 0, 0⟩] ⟨1, 2, [], 0, 0⟩ [⟨1, 3, [], 0, 0⟩] rfl (by decide) (by decide),
   (txEventBuffer_spec _ [] (fun _ => false)).2.2.2.2 (by decide)⟩

/-- C8: BroadcastTxCommit subscribes under the 10 ms subscribe timeout,
arms a 120 s inclusion timer, and when CheckTx succeeded but no deliver
event arrives within the timer it returns a non-nil error together with
a result carrying the successful CheckTx portion and a zero DeliverTx
portion. -/
theorem broadcastTxCommit_timeout :
    subscribeTimeoutMillis = 10 ∧ commitTimerSeconds = 120 ∧
    ∀ (env : BroadcastEnv) (txHash : Nat),
      env.subscribeFails = false → env.checkTxCallFails = false →
      env.checkTxResponse.code = abciCodeOK → env.deliverWithinTimer = none →
      broadcastTxCommit env txHash =
        (some { checkTx := env.checkTxResponse, deliverTx := ⟨0, [], 0⟩,
                hash := txHash, height := 0 }, true) := by
  refine ⟨rfl, rfl, ?_⟩
  intro env txHash hsub hchk hok hto
  simp [broadcastTxCommit, hsub, hchk, hok, hto]

/-- Witness for C8 at a concrete input: an environment whose CheckTx
returns OK and whose subscription never yields a deliver event. -/
theorem broadcastTxCommit_timeout_witness :
    broadcastTxCommit ⟨false, false, ⟨0, [], 0⟩, none⟩ 7 =
      (some ⟨⟨0, [], 0⟩, ⟨0, [], 0⟩, 7, 0⟩, true) :=
  broadcastTxCommit_timeout.2.2 ⟨false, false, ⟨0, [], 0⟩, none⟩ 7 rfl rfl rfl rfl

/-- First candidate segment of gossipVotesForHeight: the LastCommit
attempt, guarded by the peer being at step NewHeight. -/
def cand1 (prs : PeerRoundState) : List VoteSource :=
  if prs.Step = RoundStepType.newHeight then [VoteSource.lastCommit] else []

/-- Second candidate segment: prevotes at the peer's round, with the
source's guards. -/
def cand2 (rs : GossipView) (prs : PeerRoundState) : List VoteSource :=
  if prs.Step.toNat ≤ RoundStepType.prevote.toNat ∧ prs.Round ≠ -1 ∧ prs.Round ≤ rs.gRound
  then [VoteSource.prevotes prs.Round] else []

/-- Third candidate segment: precommits at the peer's round, with the
source's guards. -/
def cand3 (rs : GossipView) (prs : PeerRoundState) : List VoteSource :=
  if prs.Step.toNat ≤ RoundStepType.precommit.toNat ∧ prs.Round ≠ -1 ∧ prs.Round ≤ rs.gRound
  then [VoteSource.precommits prs.Round] else []

/-- Fourth candidate segment: POL-round prevotes, with the source's
guards. -/
def cand4 (rs : GossipView) (prs : PeerRoundState) : List VoteSource :=
  if prs.ProposalPOLRound ≠ -1 ∧ rs.gPrevotesNonNil prs.ProposalPOLRound = true
  then [VoteSource.polPrevotes prs.ProposalPOLRound] else []

theorem runAttempts_append (send : VoteSource → Bool) (l1 l2 : List VoteSource) :
    runAttempts send (l1 ++ l2) =
      if (runAttempts send l1).2 then runAttempts send l1
      else ((runAttempts send l1).1 ++ (runAttempts send l2).1, (runAttempts send l2).2) := by
  induction l1 with
  | nil => simp [runAttempts]
  | cons s l1 ih =>
    cases hsend : send s <;> simp [runAttempts, hsend, ih] <;> split_ifs <;> simp

theorem gossipAfterPrecommits_eq (send : VoteSource → Bool) (rs : GossipView)
    (prs : PeerRoundState) (tr : List VoteSource) :
    gossipVotesForHeight.gossipAfterPrecommits send rs prs tr =
      (tr ++ (runAttempts send (cand4 rs prs)).1, (runAttempts send (cand4 rs prs)).2) := by
  unfold gossipVotesForHeight.gossipAfterPrecommits cand4
  split_ifs with hc hs <;> simp [runAttempts, *]

theorem gossipAfterPrevotes_eq (send : VoteSource → Bool) (rs : GossipView)
    (prs : PeerRoundState) (tr : List VoteSource) :
    gossipVotesForHeight.gossipAfterPrevotes send rs prs tr =
      (tr ++ (runAttempts send (cand3 rs prs ++ cand4 rs prs)).1,
        (runAttempts send (cand3 rs prs ++ cand4 rs prs)).2) := by
  unfold gossipVotesForHeight.gossipAfterPrevotes cand3
  split_ifs with hc hs
  · simp [runAttempts_append, runAttempts, hs]
  · rw [gossipAfterPrecommits_eq]
    simp [runAttempts_append, runAttempts, hs]
  · rw [gossipAfterPrecommits_eq]
    simp [runAttempts_append, runAttempts]

theorem gossipAfterLastCommit_eq (send : VoteSource → Bool) (rs : GossipView)
    (prs : PeerRoundState) (tr : List VoteSource) :
    gossipVotesForHeight.gossipAfterLastCommit send rs prs tr =
      (tr ++ (runAttempts send (cand2 rs prs ++ (cand3 rs prs ++ cand4 rs prs))).1,
        (runAttempts send (cand2 rs prs ++ (cand3 rs prs ++ cand4 rs prs))).2) := by
  unfold gossipVotesForHeight.gossipAfterLastCommit cand2
  split_ifs with hc hs
  · simp [runAttempts_append, runAttempts, hs]
  · rw [gossipAfterPrevotes_eq]
    simp [runAttempts_append, runAttempts, hs]
  · rw [gossipAfterPrevotes_eq]
    simp [runAttempts_append, runAttempts]

/-- Peer round state of the C9 counterexample: step Propose with the
round still unknown (−1). -/
def c9Prs : PeerRoundState :=
  { initialPeerRoundState with Height := 8, Step := .propose }

/-- Local view of the C9 counterexample: local round 0, all prevote sets
present. -/
def c9Rs : GossipView := ⟨0, fun _ => true⟩

/-- C9 counterexample: with the peer's round unknown (−1) and every send
succeeding, the claim's conditions call for a prevote attempt at round
−1 that succeeds (returning true), but the source's extra
`prs.Round != -1` guards skip every attempt and return false. -/
theorem gossipVotesForHeight_counterexample :
    gossipVotesForHeight (fun _ => true) c9Rs c9Prs = ([], false) ∧
    runAttempts (fun _ => true) (claimedGossipCandidates c9Rs c9Prs) =
      ([VoteSource.prevotes (-1)], true) :=
  ⟨rfl, rfl⟩

/-- C9 amended: gossipVotesForHeight attempts sends in exactly the fixed
candidate order with the source's guards — LastCommit if the step is
NewHeight; prevotes then precommits at the peer's round if the step
bound holds, the peer's round is known (≠ −1) and does not exceed the
local round; POL-round prevotes if the POL round is set and the local
prevote set for it exists — returning true on the first successful send
and false when none succeeds. -/
theorem gossipVotesForHeight_eq_runAttempts :
    ∀ (send : VoteSource → Bool) (rs : GossipView) (prs : PeerRoundState),
      gossipVotesForHeight send rs prs =
        runAttempts send (sourceGossipCandidates rs prs) := by
  intro send rs prs
  have hsrc : sourceGossipCandidates rs prs =
      cand1 prs ++ (cand2 rs prs ++ (cand3 rs prs ++ cand4 rs prs)) := by
    simp [sourceGossipCandidates, cand1, cand2, cand3, cand4, List.append_assoc]
  rw [hsrc]
  unfold gossipVotesForHeight cand1
  split_ifs with hc hs
  · simp [runAttempts_append, runAttempts, hs]
  · rw [gossipAfterLastCommit_eq]
    simp [runAttempts_append, runAttempts, hs]
  · rw [gossipAfterLastCommit_eq]
    simp [runAttempts_append, runAttempts]

end Tendermint
